import Mathlib

/-!
# Verification of the agent-orchestration engine (opencode-lb)

Shallow embedding of the orchestration core: the in-memory `AgentRegistry`
(registry.ts), the `LifecycleEmitter` (lifecycle.ts, whose `emit` swallows
handler errors and therefore never raises), and the orchestrator operations
`dispatch`, `checkAgent`, `followupAgent`, `abortAgent`, `cleanupAgent`,
`reconstructRegistry` (orchestrator.ts), together with the status classifier
`getSessionStatus`.

Effectful code is modelled by explicit state passing: every external
interaction (shell command, HTTP fetch, lifecycle-event emission) is resolved
by a `World` record supplying the outcome of each call the operation may make
(`Except String _` for calls that can throw, where the payload is the thrown
error's message, i.e. `e?.message || String(e)` in the source), and every
operation returns, besides its result and the updated registry, the ordered
trace of external calls it performed (`List ExtCall`).  "No side effects"
claims are settled against that trace.
-/

/-- One entry of the in-memory registry (interface `AgentEntry`, registry.ts). -/
structure AgentEntry where
  issueId : String
  port : Nat
  sessionId : String
  tmuxSession : String
  branch : String
  worktreePath : String
  dispatchedAt : String
deriving DecidableEq, Repr

/-- The in-memory registry (class `AgentRegistry`, registry.ts).  A JS `Map`
is modelled as an association list in insertion order: `set` on an existing
key overwrites in place, `set` on a fresh key appends, `delete` removes —
exactly the observable entry sequence of an ECMAScript `Map`. -/
structure AgentRegistry where
  agents : List (String × AgentEntry)
deriving DecidableEq, Repr

namespace AgentRegistry

/-- `get(issueId)` — `Map.prototype.get`. -/
def get (r : AgentRegistry) (issueId : String) : Option AgentEntry :=
  (r.agents.find? (fun p => p.1 == issueId)).map (fun p => p.2)

/-- `has(issueId)` — `Map.prototype.has`. -/
def has (r : AgentRegistry) (issueId : String) : Bool :=
  (r.agents.find? (fun p => p.1 == issueId)).isSome

/-- `set(issueId, entry)` — insert or replace, keeping insertion order. -/
def set (r : AgentRegistry) (issueId : String) (e : AgentEntry) : AgentRegistry :=
  if r.has issueId then
    ⟨r.agents.map (fun p => if p.1 == issueId then (p.1, e) else p)⟩
  else
    ⟨r.agents ++ [(issueId, e)]⟩

/-- `delete(issueId)` — removes the entry if present. -/
def delete (r : AgentRegistry) (issueId : String) : AgentRegistry :=
  ⟨r.agents.filter (fun p => !(p.1 == issueId))⟩

/-- `size()`. -/
def size (r : AgentRegistry) : Nat :=
  r.agents.length

/-- Number of registry entries stored under a given taskId. -/
def countFor (r : AgentRegistry) (issueId : String) : Nat :=
  (r.agents.filter (fun p => p.1 == issueId)).length

end AgentRegistry

/-- State of the iterator returned by `AgentRegistry.entries()`
(`this.agents.entries()`, a live ECMAScript Map iterator: it holds a
reference to the map, walks the entry list by position, and once it reports
done it stays done).  The index model coincides with the ECMAScript iterator
whenever no deletion happens between creation and consumption, which is the
regime all statements below live in. -/
structure MapIter where
  index : Nat
  closed : Bool
deriving DecidableEq, Repr

/-- `entries()` (registry.ts) — returns a fresh live iterator over the
underlying map.  Note the iterator captures no snapshot: it records only a
start position. -/
def AgentRegistry.entries (_r : AgentRegistry) : MapIter :=
  ⟨0, false⟩

/-- Consuming the iterator to exhaustion (`for..of` / spread) against the
registry state `r` at consumption time: yields the entries of `r` from the
iterator's current position on, and leaves the iterator exhausted. -/
def MapIter.collect (it : MapIter) (r : AgentRegistry) :
    List (String × AgentEntry) × MapIter :=
  if it.closed then ([], it)
  else (r.agents.drop it.index, ⟨r.agents.length, true⟩)

/-- JS `a || b` on strings (empty string is falsy). -/
def jsOr (a b : String) : String :=
  if a = "" then b else a

/-- Truthiness of an optional string field (`undefined` and `""` are falsy). -/
def strTruthy : Option String → Bool
  | some s => !(s == "")
  | none => false

/-- JS `a || b` where both sides are optional string fields. -/
def jsOrStr (a b : Option String) : Option String :=
  if strTruthy a then a else b

/-- `s.replace(/c/g, d)` for a single-character pattern: replace every
occurrence of the character `a` by `b`. -/
def replaceAllChar (a b : Char) (s : String) : String :=
  String.mk (s.toList.map (fun c => if c = a then b else c))

/-- The tmux session name derived at dispatch: every hyphen of the issueId
replaced by an underscore (global regex replace, orchestrator.ts). -/
def tmuxSessionName (issueId : String) : String :=
  replaceAllChar '-' '_' issueId

/-- The branch label derived by reconstruction from the tmux session name:
`tmuxSession.replace(/_/g, "-")` (orchestrator.ts). -/
def branchFromTmux (name : String) : String :=
  replaceAllChar '_' '-' name

/-- The branch name derived at dispatch:
`slug ? issueId-slug : issueId` (orchestrator.ts). -/
def branchName (issueId : String) (slug : Option String) : String :=
  match slug with
  | some s => issueId ++ "-" ++ s
  | none => issueId

-- Registry lemmas --------------------------------------------------------

theorem find_none_filter_nil {α : Type} (p : α → Bool) :
    ∀ l : List α, l.find? p = none → l.filter p = [] := by
  intro l
  induction l with
  | nil => intro _; rfl
  | cons a tl ih =>
    intro h
    by_cases hp : p a
    · simp [List.find?, hp] at h
    · simp only [List.find?, hp] at h
      simp [List.filter, hp, ih h]

theorem find_none_append {α : Type} (p : α → Bool) (l₁ l₂ : List α)
    (h : l₁.find? p = none) : (l₁ ++ l₂).find? p = l₂.find? p := by
  induction l₁ with
  | nil => rfl
  | cons a tl ih =>
    by_cases hp : p a
    · simp [List.find?, hp] at h
    · simp only [List.find?, hp] at h
      simp only [List.cons_append, List.find?, hp]
      exact ih h

theorem filter_false_of_find_none {α : Type} (p : α → Bool) (l : List α)
    (h : l.find? p = none) : ∀ a ∈ l, p a = false := by
  induction l with
  | nil => intro a ha; cases ha
  | cons a tl ih =>
    intro b hb
    by_cases hp : p a
    · simp [List.find?, hp] at h
    · simp only [List.find?, hp] at h
      rcases List.mem_cons.mp hb with hb | hb
      · subst hb; simpa using hp
      · exact ih h b hb

theorem has_false_find_none (r : AgentRegistry) (issueId : String)
    (h : r.has issueId = false) :
    r.agents.find? (fun p => p.1 == issueId) = none := by
  unfold AgentRegistry.has at h
  cases hf : r.agents.find? (fun p => p.1 == issueId) with
  | none => rfl
  | some p => rw [hf] at h; simp at h

theorem AgentRegistry.countFor_eq_zero (r : AgentRegistry) (issueId : String)
    (h : r.has issueId = false) : r.countFor issueId = 0 := by
  unfold AgentRegistry.countFor
  rw [find_none_filter_nil _ _ (has_false_find_none r issueId h)]
  rfl

theorem AgentRegistry.countFor_set (r : AgentRegistry) (issueId : String)
    (e : AgentEntry) (h : r.has issueId = false) :
    (r.set issueId e).countFor issueId = 1 := by
  unfold AgentRegistry.set
  rw [h]
  simp only [Bool.false_eq_true, if_false]
  unfold AgentRegistry.countFor
  simp only [List.filter_append]
  rw [find_none_filter_nil _ _ (has_false_find_none r issueId h)]
  simp

theorem AgentRegistry.get_set_self (r : AgentRegistry) (issueId : String)
    (e : AgentEntry) (h : r.has issueId = false) :
    (r.set issueId e).get issueId = some e := by
  unfold AgentRegistry.set
  rw [h]
  simp only [Bool.false_eq_true, if_false]
  unfold AgentRegistry.get
  rw [find_none_append _ _ _ (has_false_find_none r issueId h)]
  simp [List.find?]

theorem AgentRegistry.get_delete_self (r : AgentRegistry) (issueId : String) :
    (r.delete issueId).get issueId = none := by
  unfold AgentRegistry.delete AgentRegistry.get
  have h : (r.agents.filter (fun p => !(p.1 == issueId))).find?
      (fun p => p.1 == issueId) = none := by
    cases hf : (r.agents.filter (fun p => !(p.1 == issueId))).find?
        (fun p => p.1 == issueId) with
    | none => rfl
    | some p =>
      have hmem := List.find?_some hf
      have hin := List.mem_of_find?_eq_some hf
      have hfil := List.of_mem_filter hin
      rw [hmem] at hfil
      simp at hfil
  rw [h]
  rfl

-- External calls ---------------------------------------------------------

/-- One external interaction the orchestrator may perform: a shell command,
an HTTP request against a worker's control API, or a lifecycle-event
emission.  Operations return the ordered list of the calls they made. -/
inductive ExtCall where
  | lbShow (issueId : String)
  | lbUpdateStatus (issueId status : String)
  | lbUpdateDesc (issueId desc : String)
  | lbSync
  | lbList
  | emitEvent (kind issueId : String)
  | worktreeCreate (branch : String)
  | worktreeDelete (branch : String) (force : Bool)
  | gitRevParseToplevel
  | dirnameOf (path : String)
  | gitDiffStat (path : String)
  | rmFile (path : String)
  | tmuxNewSession (name cwd : String)
  | tmuxHasSession (name : String)
  | tmuxKillSession (name : String)
  | tmuxCapturePane (name : String)
  | waitForPort (logFile : String)
  | httpCreateSession (port : Nat) (title : String)
  | httpPromptAsync (port : Nat) (sessionId providerID modelID text : String)
  | httpGetMessages (port : Nat) (sessionId : String)
  | httpAbort (port : Nat) (sessionId : String)
deriving DecidableEq, Repr

-- Status resolver --------------------------------------------------------

/-- A text part of a worker message (`{ type, text }`). -/
structure RawPart where
  type : String
  text : String
deriving DecidableEq, Repr

/-- A message record returned by `GET /session/:id/message`.  Role and
status live either on `msg.info` or at top level; likewise the parts list
(`msg.parts || msg.info?.parts || []`). -/
structure Msg where
  infoRole : Option String
  infoStatus : Option String
  role : Option String
  status : Option String
  parts : Option (List RawPart)
  infoParts : Option (List RawPart)
deriving DecidableEq, Repr

/-- `lastMsg?.info?.role || lastMsg?.role` (orchestrator.ts). -/
def Msg.resolvedRole (m : Msg) : Option String :=
  jsOrStr m.infoRole m.role

/-- `lastMsg?.info?.status || lastMsg?.status` (orchestrator.ts). -/
def Msg.resolvedStatus (m : Msg) : Option String :=
  jsOrStr m.infoStatus m.status

/-- Outcome of a `fetch` of a message list, as seen by the caller:
the fetch itself may throw (network error, message attached), the response
may be non-OK, the JSON parse may throw, or a message list is returned. -/
inductive FetchList where
  | netError (msg : String)
  | notOk (httpStatus : Nat)
  | parseError (msg : String)
  | ok (messages : List Msg)
deriving DecidableEq, Repr

/-- `getSessionStatus` (orchestrator.ts): classifies the worker's logical
state from its message list; any thrown error (network or parse) is caught
and yields `"unreachable"`, as does a non-OK response. -/
def getSessionStatus (f : FetchList) : String :=
  match f with
  | .netError _ => "unreachable"
  | .notOk _ => "unreachable"
  | .parseError _ => "unreachable"
  | .ok messages =>
    match messages.getLast? with
    | none => "idle"
    | some lastMsg =>
      if lastMsg.resolvedRole == some "assistant" &&
          (lastMsg.resolvedStatus == some "completed" ||
           lastMsg.resolvedStatus == some "done") then "finished"
      else if lastMsg.resolvedRole == some "assistant" &&
          lastMsg.resolvedStatus == some "streaming" then "running"
      else if lastMsg.resolvedRole == some "user" then "running"
      else "idle"

-- Dispatch pipeline ------------------------------------------------------

/-- Arguments of `dispatch` (orchestrator.ts).  `skipWorktree` is the
truthiness of the optional boolean flag. -/
structure DispatchArgs where
  issueId : String
  prompt : String
  model : Option String
  provider : Option String
  slug : Option String
  skipWorktree : Bool
deriving DecidableEq, Repr

deriving instance DecidableEq for Except

/-- Outcomes of the external calls one `dispatch` invocation may make.
`getIssueDescription` catches internally (both the json and the plain
fallback) and degrades to `""`, so it is a total `String`; every other
fallible call is an `Except String _` whose error payload is the thrown
error's message. -/
structure DispatchWorld where
  issueDesc : String
  updateStatusResult : Except String Unit
  worktreeCreateResult : Except String Unit
  repoRootResult : Except String String
  dirnameResult : Except String String
  rmLogResult : Except String Unit
  tmuxNewResult : Except String Unit
  waitForPortResult : Except String Nat
  createSessionResult : Except String String
  promptAsyncResult : Except String Unit
  updateDescResult : Except String Unit
  now : String
deriving DecidableEq, Repr

/-- Result of `dispatch`: the JSON-stringified outcome object. -/
inductive DispatchResult where
  | already_dispatched (entry : AgentEntry)
  | dispatched (entry : AgentEntry)
  | error (issueId msg : String)
deriving DecidableEq, Repr

/-- Steps 4–10 of `dispatch` (orchestrator.ts), run once the workspace path
`wtPath` is resolved: clear the log file, launch the worker in tmux, wait
for the port, create the control session, send the prompt, persist the
metadata, insert the registry entry and emit `agent:running`.  `t` is the
trace accumulated by the earlier steps. -/
def dispatchFinish (w : DispatchWorld) (registry : AgentRegistry)
    (args : DispatchArgs) (fullPrompt wtPath : String) (t : List ExtCall) :
    DispatchResult × AgentRegistry × List ExtCall :=
  let branch := branchName args.issueId args.slug
  let tmuxSession := tmuxSessionName args.issueId
  let logFile := "/tmp/opencode-" ++ args.issueId ++ ".log"
  let t4 := t ++ [.rmFile logFile]
  match w.rmLogResult with
  | .error e => (.error args.issueId e, registry, t4)
  | .ok _ =>
    let t5 := t4 ++ [.tmuxNewSession tmuxSession wtPath]
    match w.tmuxNewResult with
    | .error e => (.error args.issueId e, registry, t5)
    | .ok _ =>
      let t6 := t5 ++ [.waitForPort logFile]
      match w.waitForPortResult with
      | .error e => (.error args.issueId e, registry, t6)
      | .ok port =>
        let t7 := t6 ++ [.httpCreateSession port args.issueId]
        match w.createSessionResult with
        | .error e => (.error args.issueId e, registry, t7)
        | .ok sessionId =>
          let providerId := (args.provider.getD "anthropic")
          let modelId := (args.model.getD "claude-sonnet-4-6")
          let t8 := t7 ++
            [.httpPromptAsync port sessionId providerId modelId fullPrompt]
          match w.promptAsyncResult with
          | .error e => (.error args.issueId e, registry, t8)
          | .ok _ =>
            let meta := "Port: " ++ toString port ++ ", tmux: " ++
              tmuxSession ++ ", session: " ++ sessionId
            let t9 := t8 ++ [.lbUpdateDesc args.issueId meta]
            match w.updateDescResult with
            | .error e => (.error args.issueId e, registry, t9)
            | .ok _ =>
              let entry : AgentEntry :=
                { issueId := args.issueId
                  port := port
                  sessionId := sessionId
                  tmuxSession := tmuxSession
                  branch := if args.skipWorktree then "(no worktree)" else branch
                  worktreePath := wtPath
                  dispatchedAt := w.now }
              (.dispatched entry,
               registry.set args.issueId entry,
               t9 ++ [.emitEvent "agent:running" args.issueId])

/-- `dispatch` (orchestrator.ts): the nine-step pipeline.  Returns the
outcome, the updated registry, and the ordered trace of external calls.
The guard on an already-registered issueId is checked before the try block
(`registry.has` then `registry.get(issueId)!`, modelled as one `get`). -/
def dispatch (w : DispatchWorld) (registry : AgentRegistry)
    (args : DispatchArgs) : DispatchResult × AgentRegistry × List ExtCall :=
  let branch := branchName args.issueId args.slug
  match registry.get args.issueId with
  | some existing => (.already_dispatched existing, registry, [])
  | none =>
    let fullPrompt :=
      if w.issueDesc ≠ "" then
        "## Issue: " ++ args.issueId ++ "\n\n" ++ w.issueDesc ++
          "\n\n---\n\n" ++ args.prompt
      else args.prompt
    let t1 : List ExtCall :=
      [.lbShow args.issueId, .lbUpdateStatus args.issueId "in_progress"]
    match w.updateStatusResult with
    | .error e => (.error args.issueId e, registry, t1)
    | .ok _ =>
      let t2 := t1 ++ [.emitEvent "agent:claimed" args.issueId]
      if args.skipWorktree then
        match w.repoRootResult with
        | .error e => (.error args.issueId e, registry, t2 ++ [.gitRevParseToplevel])
        | .ok root =>
          dispatchFinish w registry args fullPrompt root
            (t2 ++ [.gitRevParseToplevel])
      else
        match w.worktreeCreateResult with
        | .error e => (.error args.issueId e, registry, t2 ++ [.worktreeCreate branch])
        | .ok _ =>
          match w.repoRootResult with
          | .error e =>
            (.error args.issueId e, registry,
             t2 ++ [.worktreeCreate branch, .gitRevParseToplevel])
          | .ok root =>
            match w.dirnameResult with
            | .error e =>
              (.error args.issueId e, registry,
               t2 ++ [.worktreeCreate branch, .gitRevParseToplevel, .dirnameOf root])
            | .ok parentDir =>
              dispatchFinish w registry args fullPrompt (parentDir ++ "/" ++ branch)
                (t2 ++ [.worktreeCreate branch, .gitRevParseToplevel, .dirnameOf root])

/-- First error raised by the steps after workspace resolution, in the
order the pipeline attempts them. -/
def dispatchTailError (w : DispatchWorld) : Option String :=
  match w.rmLogResult with
  | .error e => some e
  | .ok _ =>
    match w.tmuxNewResult with
    | .error e => some e
    | .ok _ =>
      match w.waitForPortResult with
      | .error e => some e
      | .ok _ =>
        match w.createSessionResult with
        | .error e => some e
        | .ok _ =>
          match w.promptAsyncResult with
          | .error e => some e
          | .ok _ =>
            match w.updateDescResult with
            | .error e => some e
            | .ok _ => none

/-- The message of the first pipeline step that fails under world `w`
(`none` when every step the pipeline executes succeeds), following the
step order of `dispatch`, including the dependence of the workspace steps
on the skip flag. -/
def firstDispatchError (w : DispatchWorld) (skip : Bool) : Option String :=
  match w.updateStatusResult with
  | .error e => some e
  | .ok _ =>
    if skip then
      match w.repoRootResult with
      | .error e => some e
      | .ok _ => dispatchTailError w
    else
      match w.worktreeCreateResult with
      | .error e => some e
      | .ok _ =>
        match w.repoRootResult with
        | .error e => some e
        | .ok _ =>
          match w.dirnameResult with
          | .error e => some e
          | .ok _ => dispatchTailError w

theorem dispatchFinish_spec (w : DispatchWorld) (reg : AgentRegistry)
    (args : DispatchArgs) (fullPrompt wtPath : String) (t : List ExtCall) :
    (dispatchTailError w = none →
      ∃ e, (dispatchFinish w reg args fullPrompt wtPath t).1 = .dispatched e ∧
        (dispatchFinish w reg args fullPrompt wtPath t).2.1 =
          reg.set args.issueId e) ∧
    (∀ m, dispatchTailError w = some m →
      (dispatchFinish w reg args fullPrompt wtPath t).1 = .error args.issueId m ∧
        (dispatchFinish w reg args fullPrompt wtPath t).2.1 = reg) := by
  obtain ⟨desc, us, wc, rr, dn, rm, tn, wp, cs, pa, ud, now⟩ := w
  rcases rm with e1 | u1 <;> rcases tn with e2 | u2 <;> rcases wp with e3 | port <;>
    rcases cs with e4 | sid <;> rcases pa with e5 | u5 <;> rcases ud with e6 | u6 <;>
    simp [dispatchFinish, dispatchTailError]

theorem has_false_get_none (r : AgentRegistry) (issueId : String)
    (h : r.has issueId = false) : r.get issueId = none := by
  unfold AgentRegistry.get
  rw [has_false_find_none r issueId h]
  rfl

/-- C1: for a dispatch whose taskId is not yet registered, if every pipeline
step succeeds then exactly one registry entry for that taskId exists
afterwards and a `dispatched` outcome carrying the entry is returned; if any
step fails, the registry keeps zero entries for that taskId and the outcome
is an error result carrying the failing step's error message. -/
theorem dispatch_atomic (w : DispatchWorld) (reg : AgentRegistry)
    (args : DispatchArgs) (h : reg.has args.issueId = false) :
    (firstDispatchError w args.skipWorktree = none →
      ∃ e, (dispatch w reg args).1 = .dispatched e ∧
        (dispatch w reg args).2.1.countFor args.issueId = 1) ∧
    (∀ m, firstDispatchError w args.skipWorktree = some m →
      (dispatch w reg args).1 = .error args.issueId m ∧
        (dispatch w reg args).2.1.countFor args.issueId = 0) := by
  have hget : reg.get args.issueId = none := has_false_get_none reg _ h
  have hc0 : reg.countFor args.issueId = 0 := AgentRegistry.countFor_eq_zero _ _ h
  cases hus : w.updateStatusResult with
  | error e =>
    constructor
    · intro hnone
      simp [firstDispatchError, hus] at hnone
    · intro m hm
      simp only [firstDispatchError, hus, Option.some.injEq] at hm
      subst hm
      simp [dispatch, hget, hus, hc0]
  | ok u =>
    cases hsk : args.skipWorktree with
    | true =>
      cases hrr : w.repoRootResult with
      | error e =>
        constructor
        · intro hnone
          simp [firstDispatchError, hus, hsk, hrr] at hnone
        · intro m hm
          simp only [firstDispatchError, hus, hsk, hrr, if_true,
            Option.some.injEq] at hm
          subst hm
          simp [dispatch, hget, hus, hsk, hrr, hc0]
      | ok root =>
        have hfin := dispatchFinish_spec w reg args
          (if w.issueDesc ≠ "" then
            "## Issue: " ++ args.issueId ++ "\n\n" ++ w.issueDesc ++
              "\n\n---\n\n" ++ args.prompt
           else args.prompt) root
          ([.lbShow args.issueId, .lbUpdateStatus args.issueId "in_progress"] ++
            [.emitEvent "agent:claimed" args.issueId] ++ [.gitRevParseToplevel])
        constructor
        · intro hnone
          simp only [firstDispatchError, hus, hsk, hrr, if_true] at hnone
          obtain ⟨e, he1, he2⟩ := hfin.1 hnone
          refine ⟨e, ?_, ?_⟩
          · simpa [dispatch, hget, hus, hsk, hrr] using he1
          · have : (dispatch w reg args).2.1 = reg.set args.issueId e := by
              simpa [dispatch, hget, hus, hsk, hrr] using he2
            rw [this]
            exact AgentRegistry.countFor_set _ _ _ h
        · intro m hm
          simp only [firstDispatchError, hus, hsk, hrr, if_true] at hm
          obtain ⟨he1, he2⟩ := hfin.2 m hm
          constructor
          · simpa [dispatch, hget, hus, hsk, hrr] using he1
          · have : (dispatch w reg args).2.1 = reg := by
              simpa [dispatch, hget, hus, hsk, hrr] using he2
            rw [this]
            exact hc0
    | false =>
      cases hwc : w.worktreeCreateResult with
      | error e =>
        constructor
        · intro hnone
          simp [firstDispatchError, hus, hsk, hwc] at hnone
        · intro m hm
          simp only [firstDispatchError, hus, hsk, hwc, if_false,
            Bool.false_eq_true, Option.some.injEq] at hm
          subst hm
          simp [dispatch, hget, hus, hsk, hwc, hc0]
      | ok u2 =>
        cases hrr : w.repoRootResult with
        | error e =>
          constructor
          · intro hnone
            simp [firstDispatchError, hus, hsk, hwc, hrr] at hnone
          · intro m hm
            simp only [firstDispatchError, hus, hsk, hwc, hrr, if_false,
              Bool.false_eq_true, Option.some.injEq] at hm
            subst hm
            simp [dispatch, hget, hus, hsk, hwc, hrr, hc0]
        | ok root =>
          cases hdn : w.dirnameResult with
          | error e =>
            constructor
            · intro hnone
              simp [firstDispatchError, hus, hsk, hwc, hrr, hdn] at hnone
            · intro m hm
              simp only [firstDispatchError, hus, hsk, hwc, hrr, hdn, if_false,
                Bool.false_eq_true, Option.some.injEq] at hm
              subst hm
              simp [dispatch, hget, hus, hsk, hwc, hrr, hdn, hc0]
          | ok parentDir =>
            have hfin := dispatchFinish_spec w reg args
              (if w.issueDesc ≠ "" then
                "## Issue: " ++ args.issueId ++ "\n\n" ++ w.issueDesc ++
                  "\n\n---\n\n" ++ args.prompt
               else args.prompt)
              (parentDir ++ "/" ++ branchName args.issueId args.slug)
              ([.lbShow args.issueId, .lbUpdateStatus args.issueId "in_progress"] ++
                [.emitEvent "agent:claimed" args.issueId] ++
                [.worktreeCreate (branchName args.issueId args.slug),
                 .gitRevParseToplevel, .dirnameOf root])
            constructor
            · intro hnone
              simp only [firstDispatchError, hus, hsk, hwc, hrr, hdn, if_false,
                Bool.false_eq_true] at hnone
              obtain ⟨e, he1, he2⟩ := hfin.1 hnone
              refine ⟨e, ?_, ?_⟩
              · simpa [dispatch, hget, hus, hsk, hwc, hrr, hdn] using he1
              · have : (dispatch w reg args).2.1 = reg.set args.issueId e := by
                  simpa [dispatch, hget, hus, hsk, hwc, hrr, hdn] using he2
                rw [this]
                exact AgentRegistry.countFor_set _ _ _ h
            · intro m hm
              simp only [firstDispatchError, hus, hsk, hwc, hrr, hdn, if_false,
                Bool.false_eq_true] at hm
              obtain ⟨he1, he2⟩ := hfin.2 m hm
              constructor
              · simpa [dispatch, hget, hus, hsk, hwc, hrr, hdn] using he1
              · have : (dispatch w reg args).2.1 = reg := by
                  simpa [dispatch, hget, hus, hsk, hwc, hrr, hdn] using he2
                rw [this]
                exact hc0

/-- A fully successful dispatch world (used to instantiate theorems). -/
def wDispatchOk : DispatchWorld :=
  { issueDesc := ""
    updateStatusResult := .ok ()
    worktreeCreateResult := .ok ()
    repoRootResult := .ok "/home/u/repo"
    dirnameResult := .ok "/home/u"
    rmLogResult := .ok ()
    tmuxNewResult := .ok ()
    waitForPortResult := .ok 62109
    createSessionResult := .ok "ses_1"
    promptAsyncResult := .ok ()
    updateDescResult := .ok ()
    now := "2026-01-01T00:00:00Z" }

/-- The same world with the port discovery timing out. -/
def wDispatchTimeout : DispatchWorld :=
  { wDispatchOk with
    waitForPortResult :=
      .error "Timed out waiting for opencode serve to start (30000ms)" }

/-- Dispatch arguments for taskId T-9, slug-less, with worktree. -/
def argsT9 : DispatchArgs :=
  { issueId := "T-9", prompt := "do the task", model := none, provider := none,
    slug := none, skipWorktree := false }

theorem dispatch_atomic_witness :
    (∃ e, (dispatch wDispatchOk ⟨[]⟩ argsT9).1 = .dispatched e ∧
      (dispatch wDispatchOk ⟨[]⟩ argsT9).2.1.countFor "T-9" = 1) ∧
    ((dispatch wDispatchTimeout ⟨[]⟩ argsT9).1 =
      .error "T-9" "Timed out waiting for opencode serve to start (30000ms)" ∧
      (dispatch wDispatchTimeout ⟨[]⟩ argsT9).2.1.countFor "T-9" = 0) :=
  ⟨(dispatch_atomic wDispatchOk ⟨[]⟩ argsT9 (by decide)).1 (by decide),
   (dispatch_atomic wDispatchTimeout ⟨[]⟩ argsT9 (by decide)).2
     "Timed out waiting for opencode serve to start (30000ms)" (by decide)⟩

/-- C2: dispatching a taskId that is already registered short-circuits:
the existing entry is returned tagged `already_dispatched`, the registry is
unchanged, and no external call of any kind is made. -/
theorem dispatch_duplicate_noop (w : DispatchWorld) (reg : AgentRegistry)
    (args : DispatchArgs) (e : AgentEntry)
    (h : reg.get args.issueId = some e) :
    dispatch w reg args = (.already_dispatched e, reg, []) := by
  simp [dispatch, h]

/-- A registry holding one entry for T-9 (used to instantiate theorems). -/
def entryT9 : AgentEntry :=
  { issueId := "T-9", port := 62109, sessionId := "ses_1",
    tmuxSession := "T_9", branch := "T-9", worktreePath := "/home/u/T-9",
    dispatchedAt := "2026-01-01T00:00:00Z" }

theorem dispatch_duplicate_noop_witness :
    dispatch wDispatchOk ⟨[("T-9", entryT9)]⟩ argsT9 =
      (.already_dispatched entryT9, ⟨[("T-9", entryT9)]⟩, []) :=
  dispatch_duplicate_noop wDispatchOk ⟨[("T-9", entryT9)]⟩ argsT9 entryT9
    (by decide)

-- C3: status classification ---------------------------------------------

/-- C3: `getSessionStatus` returns `idle` on an empty history, `finished`
when the last message is an assistant message with a completed status
(`"completed"` or `"done"`), `running` when the last message is an
assistant message with status `"streaming"`, `running` when the last
message is a user message, `idle` for every other role/status combination,
and `unreachable` on any network failure, non-OK response or parse
failure. -/
theorem getSessionStatus_classification :
    (getSessionStatus (.ok []) = "idle") ∧
    (∀ ms m, ms.getLast? = some m → m.resolvedRole = some "assistant" →
      (m.resolvedStatus = some "completed" ∨ m.resolvedStatus = some "done") →
      getSessionStatus (.ok ms) = "finished") ∧
    (∀ ms m, ms.getLast? = some m → m.resolvedRole = some "assistant" →
      m.resolvedStatus = some "streaming" →
      getSessionStatus (.ok ms) = "running") ∧
    (∀ ms m, ms.getLast? = some m → m.resolvedRole = some "user" →
      getSessionStatus (.ok ms) = "running") ∧
    (∀ ms m, ms.getLast? = some m →
      m.resolvedRole ≠ some "assistant" → m.resolvedRole ≠ some "user" →
      getSessionStatus (.ok ms) = "idle") ∧
    (∀ ms m, ms.getLast? = some m → m.resolvedRole = some "assistant" →
      m.resolvedStatus ≠ some "completed" → m.resolvedStatus ≠ some "done" →
      m.resolvedStatus ≠ some "streaming" →
      getSessionStatus (.ok ms) = "idle") ∧
    (∀ msg, getSessionStatus (.netError msg) = "unreachable") ∧
    (∀ msg, getSessionStatus (.parseError msg) = "unreachable") ∧
    (∀ code, getSessionStatus (.notOk code) = "unreachable") := by
  refine ⟨rfl, ?_, ?_, ?_, ?_, ?_, fun _ => rfl, fun _ => rfl, fun _ => rfl⟩
  · intro ms m hlast h1 h2
    rcases h2 with h2 | h2 <;> simp [getSessionStatus, hlast, h1, h2]
  · intro ms m hlast h1 h2
    simp [getSessionStatus, hlast, h1, h2]
  · intro ms m hlast h1
    have hr : (m.resolvedRole == some "assistant") = false := by
      simp [h1]
    simp [getSessionStatus, hlast, hr, h1]
  · intro ms m hlast h1 h2
    have hr : (m.resolvedRole == some "assistant") = false := by
      simp only [beq_eq_false_iff_ne, ne_eq]
      exact h1
    have hu : (m.resolvedRole == some "user") = false := by
      simp only [beq_eq_false_iff_ne, ne_eq]
      exact h2
    simp [getSessionStatus, hlast, hr, hu]
  · intro ms m hlast h1 hc hd hs
    have hc' : (m.resolvedStatus == some "completed") = false := by
      simp only [beq_eq_false_iff_ne, ne_eq]
      exact hc
    have hd' : (m.resolvedStatus == some "done") = false := by
      simp only [beq_eq_false_iff_ne, ne_eq]
      exact hd
    have hs' : (m.resolvedStatus == some "streaming") = false := by
      simp only [beq_eq_false_iff_ne, ne_eq]
      exact hs
    have hu : (m.resolvedRole == some "user") = false := by
      simp [h1]
    simp [getSessionStatus, hlast, h1, hc', hd', hs', hu]

/-- An assistant message marked completed, fields on `info`. -/
def msgAssistantDone : Msg :=
  { infoRole := some "assistant", infoStatus := some "completed",
    role := none, status := none, parts := none, infoParts := none }

/-- A user message, fields at top level. -/
def msgUser : Msg :=
  { infoRole := none, infoStatus := none,
    role := some "user", status := none, parts := none, infoParts := none }

theorem getSessionStatus_classification_witness :
    getSessionStatus (.ok [msgUser, msgAssistantDone]) = "finished" ∧
    getSessionStatus (.ok [msgAssistantDone, msgUser]) = "running" ∧
    getSessionStatus (.ok []) = "idle" ∧
    getSessionStatus (.netError "fetch failed") = "unreachable" :=
  ⟨getSessionStatus_classification.2.1 [msgUser, msgAssistantDone]
      msgAssistantDone (by decide) (by decide) (Or.inl (by decide)),
   getSessionStatus_classification.2.2.2.1 [msgAssistantDone, msgUser]
      msgUser (by decide) (by decide),
   getSessionStatus_classification.1,
   getSessionStatus_classification.2.2.2.2.2.2.1 "fetch failed"⟩

-- C6: the entries() iterator ---------------------------------------------

/-- C6 counterexample: `entries()` is neither restartable nor a snapshot.
With one entry present, consuming the iterator twice yields the pair list
first and the empty list second; and an iterator obtained from the empty
registry, consumed after an insertion, yields the inserted pair rather
than the empty snapshot. -/
theorem entries_snapshot_counterexample :
    (((AgentRegistry.entries ⟨[("T-9", entryT9)]⟩).collect
        ⟨[("T-9", entryT9)]⟩).1 ≠
      ((((AgentRegistry.entries ⟨[("T-9", entryT9)]⟩).collect
        ⟨[("T-9", entryT9)]⟩).2).collect ⟨[("T-9", entryT9)]⟩).1) ∧
    (((AgentRegistry.entries ⟨[]⟩).collect
        (AgentRegistry.set ⟨[]⟩ "T-9" entryT9)).1 ≠
      ((AgentRegistry.entries ⟨[]⟩).collect ⟨[]⟩).1) := by
  constructor <;> decide

/-- C6 amended: `entries()` yields a live, one-shot iterator over the
underlying map: consuming it yields the (id, entry) pairs present in the
registry at consumption time — so mutations between the call and the
consumption are reflected — and consuming it a second time yields
nothing. -/
theorem entries_live_one_shot (r rc : AgentRegistry) :
    ((r.entries).collect rc).1 = rc.agents ∧
    ((((r.entries).collect rc).2).collect rc).1 = [] := by
  simp [AgentRegistry.entries, MapIter.collect]

-- C8: branch-label round trip --------------------------------------------

theorem roundtrip_chars :
    ∀ l : List Char, '_' ∉ l →
      (l.map (fun c => if c = '-' then '_' else c)).map
        (fun c => if c = '_' then '-' else c) = l := by
  intro l
  induction l with
  | nil => intro _; rfl
  | cons a tl ih =>
    intro h
    have ha : a ≠ '_' := fun hc => h (hc ▸ List.mem_cons_self a tl)
    have htl : '_' ∉ tl := fun hc => h (List.mem_cons_of_mem a hc)
    simp only [List.map_cons, ih htl]
    by_cases hd : a = '-'
    · simp [hd]
    · simp [hd, ha]

/-- C8 counterexample: for a taskId that itself contains an underscore, the
reconstruction inverse of the tmux-name derivation does not return the
branch label a slug-less dispatch would have recorded: `"A_1"` maps to tmux
session `"A_1"`, which reconstruction turns into branch `"A-1"`, while a
slug-less dispatch of `"A_1"` records branch `"A_1"`. -/
theorem branch_roundtrip_counterexample :
    branchFromTmux (tmuxSessionName "A_1") ≠ branchName "A_1" none := by
  decide

/-- C8 amended: for every taskId containing no underscore, applying the
tmux-session-name derivation used at dispatch and then the inverse
transform used by the reconstruction protocol yields exactly the branch
label a slug-less dispatch of that taskId records. -/
theorem branch_roundtrip (issueId : String) (h : '_' ∉ issueId.toList) :
    branchFromTmux (tmuxSessionName issueId) = branchName issueId none := by
  unfold branchFromTmux tmuxSessionName replaceAllChar branchName
  cases issueId with
  | mk l =>
    show String.mk ((l.map _).map _) = String.mk l
    rw [roundtrip_chars l h]

theorem branch_roundtrip_witness :
    branchFromTmux (tmuxSessionName "AGE-42") = branchName "AGE-42" none :=
  branch_roundtrip "AGE-42" (by decide)

-- Check / Followup / Abort ------------------------------------------------

/-- JS `xs.slice(-n)`: the last `n` elements (everything when `n ≥ length`). -/
def jsSliceNeg {α : Type} (n : Nat) (xs : List α) : List α :=
  xs.drop (xs.length - n)

/-- JS `s.slice(-n)` on a string, modelled over characters. -/
def strSliceNeg (n : Nat) (s : String) : String :=
  String.mk (jsSliceNeg n s.toList)

/-- `msg.parts || msg.info?.parts || []` — note a present-but-empty array is
truthy in JS, so only an absent field falls through. -/
def Msg.partsOf (m : Msg) : List RawPart :=
  (m.parts.orElse (fun _ => m.infoParts)).getD []

/-- `msg.info?.role || msg.role || "unknown"`. -/
def Msg.roleOrUnknown (m : Msg) : String :=
  match jsOrStr (jsOrStr m.infoRole m.role) (some "unknown") with
  | some s => s
  | none => "unknown"

/-- One element of `recentMessages`: role plus text truncated to 500. -/
structure TextEntry where
  role : String
  text : String
deriving DecidableEq, Repr

/-- The text extraction of `checkAgent`: flat-map every message's text
parts to (role, text truncated to 500 characters), then keep the last
`limit` entries (`.slice(-limit)`). -/
def extractTexts (ms : List Msg) (limit : Nat) : List TextEntry :=
  jsSliceNeg limit
    ((ms.map (fun m =>
      ((m.partsOf.filter (fun p => p.type == "text")).map
        (fun p => { role := m.roleOrUnknown, text := p.text.take 500 })))).flatten)

/-- Outcomes of the external calls one `checkAgent` invocation may make.
`statusFetch` resolves the fetch made inside `getSessionStatus`,
`messagesFetch` the direct message fetch; `diffStat` is the result of the
best-effort `getGitDiffStat` (which never throws, `none` meaning null);
`captureResult` resolves the tmux capture-pane fallback. -/
structure CheckWorld where
  statusFetch : FetchList
  diffStat : Option String
  messagesFetch : FetchList
  captureResult : Except String String
deriving Repr

/-- Result of `checkAgent`. -/
inductive CheckResult where
  | not_found (issueId hint : String)
  | httpError (sessionStatus : String) (issueId : String) (httpStatus : Nat)
      (diffStat : Option String) (agent : AgentEntry)
  | report (sessionStatus : String) (issueId : String) (port : Nat)
      (tmux branch : String) (diffStat : Option String)
      (recentMessages : List TextEntry)
  | tmuxFallback (issueId tmuxOutput : String) (agent : AgentEntry)
  | unreachable (issueId error : String) (agent : AgentEntry)
deriving DecidableEq, Repr

/-- `checkAgent` (orchestrator.ts).  The not-found lookup happens before any
external call; the outer catch (triggering the tmux fallback) can only be
entered by the direct message fetch throwing or its JSON parse throwing,
since `getSessionStatus` and `getGitDiffStat` both swallow their own
failures. -/
def checkAgent (w : CheckWorld) (r : AgentRegistry) (issueId : String)
    (lines : Option Nat) : CheckResult × AgentRegistry × List ExtCall :=
  match r.get issueId with
  | none =>
    (.not_found issueId
      "Agent not in registry. It may have been cleaned up or started before this session.",
     r, [])
  | some agent =>
    let limit := match lines with
      | some n => if n = 0 then 10 else n
      | none => 10
    let sessionStatus := getSessionStatus w.statusFetch
    let diffStat := if agent.worktreePath ≠ "" then w.diffStat else none
    let t1 : List ExtCall :=
      [.httpGetMessages agent.port agent.sessionId] ++
      (if agent.worktreePath ≠ "" then [.gitDiffStat agent.worktreePath] else []) ++
      [.httpGetMessages agent.port agent.sessionId]
    match w.messagesFetch with
    | .notOk st => (.httpError sessionStatus issueId st diffStat agent, r, t1)
    | .ok ms =>
      (.report sessionStatus issueId agent.port agent.tmuxSession agent.branch
        diffStat (extractTexts ms limit), r, t1)
    | .netError em =>
      let t2 := t1 ++ [.tmuxCapturePane agent.tmuxSession]
      match w.captureResult with
      | .ok out => (.tmuxFallback issueId (strSliceNeg 2000 out.trim) agent, r, t2)
      | .error _ => (.unreachable issueId em agent, r, t2)
    | .parseError em =>
      let t2 := t1 ++ [.tmuxCapturePane agent.tmuxSession]
      match w.captureResult with
      | .ok out => (.tmuxFallback issueId (strSliceNeg 2000 out.trim) agent, r, t2)
      | .error _ => (.unreachable issueId em agent, r, t2)

/-- An HTTP response as the orchestrator reads it: `ok` flag and status. -/
structure HttpResp where
  ok : Bool
  status : Nat
deriving DecidableEq, Repr

/-- Outcome of the one fetch `followupAgent` makes. -/
structure FollowupWorld where
  promptResult : Except String HttpResp
deriving DecidableEq, Repr

/-- Result of `followupAgent`. -/
inductive FollowupResult where
  | not_found (issueId : String)
  | sent (issueId : String) (httpStatus : Nat)
  | failed (issueId : String) (httpStatus : Nat)
  | error (issueId msg : String)
deriving DecidableEq, Repr

/-- `followupAgent` (orchestrator.ts): posts the follow-up message to
`prompt_async` with the hard-coded model selector
`{ providerID: "anthropic", modelID: "claude-sonnet-4-6" }`. -/
def followupAgent (w : FollowupWorld) (r : AgentRegistry)
    (issueId message : String) :
    FollowupResult × AgentRegistry × List ExtCall :=
  match r.get issueId with
  | none => (.not_found issueId, r, [])
  | some agent =>
    let t : List ExtCall :=
      [.httpPromptAsync agent.port agent.sessionId "anthropic"
        "claude-sonnet-4-6" message]
    match w.promptResult with
    | .ok resp =>
      if resp.ok then (.sent issueId resp.status, r, t)
      else (.failed issueId resp.status, r, t)
    | .error m => (.error issueId m, r, t)

/-- Outcome of the one fetch `abortAgent` makes. -/
structure AbortWorld where
  abortResult : Except String HttpResp
deriving DecidableEq, Repr

/-- Result of `abortAgent`. -/
inductive AbortResult where
  | not_found (issueId : String)
  | aborted (issueId : String) (httpStatus : Nat)
  | failed (issueId : String) (httpStatus : Nat)
  | error (issueId msg : String)
deriving DecidableEq, Repr

/-- `abortAgent` (orchestrator.ts): posts to the session's abort endpoint;
on an OK response emits `agent:aborted`.  The registry is never mutated. -/
def abortAgent (w : AbortWorld) (r : AgentRegistry) (issueId : String) :
    AbortResult × AgentRegistry × List ExtCall :=
  match r.get issueId with
  | none => (.not_found issueId, r, [])
  | some agent =>
    let t : List ExtCall := [.httpAbort agent.port agent.sessionId]
    match w.abortResult with
    | .ok resp =>
      if resp.ok then
        (.aborted issueId resp.status, r, t ++ [.emitEvent "agent:aborted" issueId])
      else (.failed issueId resp.status, r, t)
    | .error m => (.error issueId m, r, t)

-- Cleanup -----------------------------------------------------------------

/-- Outcomes of the external calls one `cleanupAgent` invocation may make. -/
structure CleanupWorld where
  tmuxKillResult : Except String Unit
  worktreeDeleteResult : Except String Unit
  updateStatusResult : Except String Unit
  syncResult : Except String Unit
  rmLogResult : Except String Unit
deriving DecidableEq, Repr

/-- Result of `cleanupAgent`: either not-found, or the per-step action
list. -/
inductive CleanupResult where
  | not_found (issueId : String)
  | cleaned_up (issueId : String) (actions : List String)
deriving DecidableEq, Repr

/-- Step 1's note: `"tmux killed"` on success, `"tmux already gone"` when
the kill threw. -/
def tmuxKillNote (x : Except String Unit) : String :=
  match x with
  | .ok _ => "tmux killed"
  | .error _ => "tmux already gone"

/-- Step 2's note: `"worktree deleted"` or the failure note carrying the
error's message. -/
def worktreeDeleteNote (x : Except String Unit) : String :=
  match x with
  | .ok _ => "worktree deleted"
  | .error e => "worktree delete failed: " ++ e

/-- Step 3's note: `"status set to <s>"` or the failure note carrying the
error's message. -/
def statusUpdateNote (x : Except String Unit) (newStatus : String) : String :=
  match x with
  | .ok _ => "status set to " ++ newStatus
  | .error e => "status update failed: " ++ e

/-- Step 5's notes: `"synced"` on success, nothing on failure (the catch
block is empty). -/
def syncNotes (x : Except String Unit) : List String :=
  match x with
  | .ok _ => ["synced"]
  | .error _ => []

/-- `cleanupAgent` (orchestrator.ts): independently attempts, in order,
tmux kill, worktree delete (skipped for "(no worktree)" dispatches, forced
unless `force` is explicitly false), tracker status update, lifecycle
emission, sync, registry removal and log-file removal, recording each
step's outcome in `actions` (sync failure and log removal record
nothing — their catch blocks are empty). -/
def cleanupAgent (w : CleanupWorld) (r : AgentRegistry) (issueId : String)
    (status : Option String) (force : Option Bool) :
    CleanupResult × AgentRegistry × List ExtCall :=
  match r.get issueId with
  | none => (.not_found issueId, r, [])
  | some agent =>
    let shouldForce := !(force == some false)
    let a1 := [tmuxKillNote w.tmuxKillResult]
    let t1 : List ExtCall := [.tmuxKillSession agent.tmuxSession]
    let a2 := if agent.branch ≠ "(no worktree)" then
        [worktreeDeleteNote w.worktreeDeleteResult]
      else []
    let t2 : List ExtCall := if agent.branch ≠ "(no worktree)" then
        [.worktreeDelete agent.branch shouldForce] else []
    let newStatus := status.getD "in_review"
    let a3 := [statusUpdateNote w.updateStatusResult newStatus]
    let t3 : List ExtCall := [.lbUpdateStatus issueId newStatus]
    let t4 : List ExtCall :=
      if newStatus = "in_review" then [.emitEvent "agent:finished" issueId]
      else if newStatus = "done" then [.emitEvent "agent:closed" issueId]
      else []
    let a5 := syncNotes w.syncResult
    let t5 : List ExtCall := [.lbSync]
    let t7 : List ExtCall := [.rmFile ("/tmp/opencode-" ++ issueId ++ ".log")]
    (.cleaned_up issueId (a1 ++ a2 ++ a3 ++ a5),
     r.delete issueId,
     t1 ++ t2 ++ t3 ++ t4 ++ t5 ++ t7)

-- Reconstruction protocol -------------------------------------------------

/-- Drop the literal `lit` from the front of `cs`, or fail. -/
def dropLit : List Char → List Char → Option (List Char)
  | [], cs => some cs
  | _ :: _, [] => none
  | l :: ls, c :: cs => if c = l then dropLit ls cs else none

/-- The regex whitespace class, restricted to its ASCII members. -/
def jsWhitespace (c : Char) : Bool :=
  c == ' ' || c == '\t' || c == '\n' || c == '\r' ||
    c == '\x0b' || c == '\x0c'

/-- Try the pattern `Port:` + whitespace-star + one-or-more digits at the
head of `cs`, returning the captured digit run. -/
def tryPortAt (cs : List Char) : Option String :=
  match dropLit "Port:".toList cs with
  | none => none
  | some rest =>
    let digits := (rest.dropWhile jsWhitespace).takeWhile Char.isDigit
    if digits.isEmpty then none else some (String.mk digits)

/-- Try the pattern `lit` + whitespace-star + one-or-more non-whitespace at
the head of `cs`, returning the captured token. -/
def tryCapAt (lit : String) (cs : List Char) : Option String :=
  match dropLit lit.toList cs with
  | none => none
  | some rest =>
    let tok := (rest.dropWhile jsWhitespace).takeWhile (fun c => !(jsWhitespace c))
    if tok.isEmpty then none else some (String.mk tok)

/-- Left-to-right scan for the first position where `f` matches —
the semantics of an unanchored JS regex `match`. -/
def scanFirst (f : List Char → Option String) : List Char → Option String
  | [] => f []
  | c :: cs =>
    match f (c :: cs) with
    | some r => some r
    | none => scanFirst f cs

/-- `desc.match` of the pattern `Port:` whitespace-star capture-digits. -/
def matchPort (desc : String) : Option String :=
  scanFirst tryPortAt desc.toList

/-- `desc.match` of the pattern `tmux:` whitespace-star capture-non-space. -/
def matchTmux (desc : String) : Option String :=
  scanFirst (tryCapAt "tmux:") desc.toList

/-- `desc.match` of the pattern `session:` whitespace-star capture-non-space. -/
def matchSession (desc : String) : Option String :=
  scanFirst (tryCapAt "session:") desc.toList

/-- `.replace` of the anchored pattern comma-end-of-string (global flag):
removes exactly one trailing comma when present. -/
def stripTrailingComma (s : String) : String :=
  if s.endsWith "," then s.dropRight 1 else s

/-- `parseInt(s, 10)` on an all-digit capture. -/
def parseDigits (s : String) : Nat :=
  s.toNat?.getD 0

/-- One task record from `lb list --status in_progress --json`; absent JSON
fields are modelled as `""` (both are falsy to the `||` defaulting the
source applies). -/
structure TrackerIssue where
  description : String
  identifier : String
  id : String
  updated_at : String
deriving DecidableEq, Repr

/-- Outcome of the tracker query at the head of `reconstructRegistry`:
the spawn may fail (outer catch), the bounded wait may produce `""` or the
list may be `"[]"` (early return), the JSON parse may throw (outer catch),
or a list of issues is obtained. -/
inductive TrackerQuery where
  | spawnFailure
  | emptyOutput
  | parseFailure
  | ok (issues : List TrackerIssue)
deriving Repr

/-- Outcomes of the external interactions of one `reconstructRegistry`
run: the tracker query and, per tmux session name, the liveness probe
(`tmux has-session`). -/
structure ReconWorld where
  query : TrackerQuery
  tmuxAlive : String → Bool
  nowIso : String

/-- The loop body of `reconstructRegistry` for a single tracker task:
parse the three metadata fields from the description; if all three are
present and the named tmux session is alive, synthesize and insert an
entry (workspacePath left empty, branch derived by the inverse name
transform); otherwise leave the registry untouched. -/
def reconIssue (w : ReconWorld) (r : AgentRegistry) (issue : TrackerIssue) :
    AgentRegistry :=
  match matchPort issue.description, matchTmux issue.description,
      matchSession issue.description with
  | some portStr, some tmuxRaw, some sessRaw =>
    let port := parseDigits portStr
    let tmuxSession := stripTrailingComma tmuxRaw
    let sessionId := stripTrailingComma sessRaw
    let issueId := jsOr issue.identifier issue.id
    if w.tmuxAlive tmuxSession then
      r.set issueId
        { issueId := issueId
          port := port
          sessionId := sessionId
          tmuxSession := tmuxSession
          branch := branchFromTmux tmuxSession
          worktreePath := ""
          dispatchedAt := jsOr issue.updated_at w.nowIso }
    else r
  | _, _, _ => r

/-- `reconstructRegistry` (orchestrator.ts): best-effort rebuild of the
registry from the tracker's in-progress tasks; every failure mode of the
query leaves the registry unchanged, and the per-task loop body never
throws (the liveness probe's failure is caught and means "skip"). -/
def reconstructRegistry (w : ReconWorld) (r : AgentRegistry) : AgentRegistry :=
  match w.query with
  | .ok issues => issues.foldl (reconIssue w) r
  | _ => r

/-- Whether a task's description parses to the complete
{port, tmux-session, session-id} triple. -/
def completeTriple (issue : TrackerIssue) : Bool :=
  (matchPort issue.description).isSome &&
    (matchTmux issue.description).isSome &&
    (matchSession issue.description).isSome

/-- The tmux session name a task's metadata references (after the
trailing-comma strip). -/
def supervisorNameOf (issue : TrackerIssue) : String :=
  stripTrailingComma ((matchTmux issue.description).getD "")

-- C4: reconstruction skips dead sessions and swallows total failure -------

theorem reconIssue_noop (w : ReconWorld) (r : AgentRegistry)
    (issue : TrackerIssue)
    (h : completeTriple issue = true →
      w.tmuxAlive (supervisorNameOf issue) = false) :
    reconIssue w r issue = r := by
  cases hp : matchPort issue.description with
  | none => simp [reconIssue, hp]
  | some portStr =>
    cases ht : matchTmux issue.description with
    | none => simp [reconIssue, hp, ht]
    | some tmuxRaw =>
      cases hs : matchSession issue.description with
      | none => simp [reconIssue, hp, ht, hs]
      | some sessRaw =>
        have hc : completeTriple issue = true := by
          simp [completeTriple, hp, ht, hs]
        have hdead := h hc
        unfold supervisorNameOf at hdead
        rw [ht] at hdead
        simp only [Option.getD_some] at hdead
        simp [reconIssue, hp, ht, hs, hdead]

theorem foldl_reconIssue_noop (w : ReconWorld) :
    ∀ (issues : List TrackerIssue) (r : AgentRegistry),
      (∀ issue ∈ issues, completeTriple issue = true →
        w.tmuxAlive (supervisorNameOf issue) = false) →
      issues.foldl (reconIssue w) r = r := by
  intro issues
  induction issues with
  | nil => intro r _; rfl
  | cons a tl ih =>
    intro r h
    rw [List.foldl_cons, reconIssue_noop w r a (h a (List.mem_cons_self a tl))]
    exact ih r (fun i hi => h i (List.mem_cons_of_mem a hi))

/-- C4: a tracker task whose description parses to the complete
{port, tmux-session, session-id} triple but whose tmux session is dead
contributes no registry entry — if every complete-triple task is dead the
registry is left exactly unchanged — and every total-failure mode of the
protocol (spawn failure, empty/timeout output, parse failure) is swallowed
and leaves the registry unchanged. -/
theorem reconstruct_dead_sessions_noop (w : ReconWorld) (r : AgentRegistry) :
    (∀ issues, w.query = .ok issues →
      (∀ issue ∈ issues, completeTriple issue = true →
        w.tmuxAlive (supervisorNameOf issue) = false) →
      reconstructRegistry w r = r) ∧
    (w.query = .spawnFailure → reconstructRegistry w r = r) ∧
    (w.query = .emptyOutput → reconstructRegistry w r = r) ∧
    (w.query = .parseFailure → reconstructRegistry w r = r) := by
  refine ⟨?_, ?_, ?_, ?_⟩
  · intro issues hq hdead
    unfold reconstructRegistry
    rw [hq]
    exact foldl_reconIssue_noop w issues r hdead
  · intro hq; simp [reconstructRegistry, hq]
  · intro hq; simp [reconstructRegistry, hq]
  · intro hq; simp [reconstructRegistry, hq]

/-- A tracker task with complete embedded metadata. -/
def issueAGE42 : TrackerIssue :=
  { description := "Port: 62109, tmux: AGE_42, session: ses_abc",
    identifier := "AGE-42", id := "", updated_at := "2025-01-01" }

/-- A reconstruction world whose tracker returns that task but in which
every tmux session is dead. -/
def wReconDead : ReconWorld :=
  { query := .ok [issueAGE42], tmuxAlive := fun _ => false, nowIso := "now" }

theorem reconstruct_dead_sessions_noop_witness :
    reconstructRegistry wReconDead ⟨[]⟩ = (⟨[]⟩ : AgentRegistry) :=
  (reconstruct_dead_sessions_noop wReconDead ⟨[]⟩).1 [issueAGE42] rfl
    (fun _ _ _ => rfl)

-- C5: cleanup tolerates per-step failure ----------------------------------

/-- C5: for a registered task with a real worktree, when the worktree
deletion fails and the status update succeeds, cleanup still attempts the
tracker status update, still removes the registry entry, and returns the
per-step action list holding the tmux note, then the worktree failure note
carrying the error's message, then the status success note, then the sync
notes — never a single collapsed pass/fail. -/
theorem cleanup_tolerates_failure (w : CleanupWorld) (r : AgentRegistry)
    (issueId : String) (status : Option String) (force : Option Bool)
    (agent : AgentEntry) (m : String)
    (hget : r.get issueId = some agent)
    (hbr : agent.branch ≠ "(no worktree)")
    (hwd : w.worktreeDeleteResult = .error m)
    (hup : w.updateStatusResult = .ok ()) :
    (cleanupAgent w r issueId status force).1 = .cleaned_up issueId
      ([tmuxKillNote w.tmuxKillResult] ++
       ["worktree delete failed: " ++ m] ++
       ["status set to " ++ status.getD "in_review"] ++
       syncNotes w.syncResult) ∧
    (.lbUpdateStatus issueId (status.getD "in_review")) ∈
      (cleanupAgent w r issueId status force).2.2 ∧
    (cleanupAgent w r issueId status force).2.1.get issueId = none := by
  refine ⟨?_, ?_, ?_⟩
  · simp [cleanupAgent, hget, hbr, hwd, hup, worktreeDeleteNote, statusUpdateNote]
  · simp [cleanupAgent, hget, hbr]
  · simp [cleanupAgent, hget, AgentRegistry.get_delete_self]

/-- A cleanup world in which only the worktree deletion fails. -/
def wCleanupWtFail : CleanupWorld :=
  { tmuxKillResult := .ok ()
    worktreeDeleteResult := .error "branch T-9 is used by worktree"
    updateStatusResult := .ok ()
    syncResult := .ok ()
    rmLogResult := .ok () }

theorem cleanup_tolerates_failure_witness :
    (cleanupAgent wCleanupWtFail ⟨[("T-9", entryT9)]⟩ "T-9" none none).1 =
      .cleaned_up "T-9"
        (["tmux killed"] ++
         ["worktree delete failed: branch T-9 is used by worktree"] ++
         ["status set to in_review"] ++ ["synced"]) ∧
    (ExtCall.lbUpdateStatus "T-9" "in_review") ∈
      (cleanupAgent wCleanupWtFail ⟨[("T-9", entryT9)]⟩ "T-9" none none).2.2 ∧
    (cleanupAgent wCleanupWtFail ⟨[("T-9", entryT9)]⟩ "T-9" none none).2.1.get
      "T-9" = none :=
  cleanup_tolerates_failure wCleanupWtFail ⟨[("T-9", entryT9)]⟩ "T-9" none none
    entryT9 "branch T-9 is used by worktree" (by decide) (by decide) rfl rfl

-- C9: not-found operations are pure ---------------------------------------

/-- C9: for a taskId absent from the registry, `checkAgent`,
`followupAgent`, `abortAgent` and `cleanupAgent` each return their
not-found outcome, leave the registry unchanged, and perform no external
call whatsoever (no HTTP, shell, tracker or lifecycle emission). -/
theorem ops_not_found_noop (cw : CheckWorld) (fw : FollowupWorld)
    (aw : AbortWorld) (clw : CleanupWorld) (r : AgentRegistry)
    (issueId : String) (lines : Option Nat) (message : String)
    (status : Option String) (force : Option Bool)
    (h : r.get issueId = none) :
    checkAgent cw r issueId lines =
      (.not_found issueId
        "Agent not in registry. It may have been cleaned up or started before this session.",
       r, []) ∧
    followupAgent fw r issueId message = (.not_found issueId, r, []) ∧
    abortAgent aw r issueId = (.not_found issueId, r, []) ∧
    cleanupAgent clw r issueId status force = (.not_found issueId, r, []) := by
  refine ⟨?_, ?_, ?_, ?_⟩ <;>
    simp [checkAgent, followupAgent, abortAgent, cleanupAgent, h]

/-- A check world for instantiating theorems. -/
def cwProbe : CheckWorld :=
  { statusFetch := .ok [], diffStat := none, messagesFetch := .ok [],
    captureResult := .ok "" }

theorem ops_not_found_noop_witness :
    checkAgent cwProbe ⟨[]⟩ "T-404" none =
      (.not_found "T-404"
        "Agent not in registry. It may have been cleaned up or started before this session.",
       ⟨[]⟩, []) ∧
    followupAgent ⟨.ok ⟨true, 200⟩⟩ ⟨[]⟩ "T-404" "hello" =
      (.not_found "T-404", ⟨[]⟩, []) ∧
    abortAgent ⟨.ok ⟨true, 200⟩⟩ ⟨[]⟩ "T-404" =
      (.not_found "T-404", ⟨[]⟩, []) ∧
    cleanupAgent wCleanupWtFail ⟨[]⟩ "T-404" none none =
      (.not_found "T-404", ⟨[]⟩, []) :=
  ops_not_found_noop cwProbe ⟨.ok ⟨true, 200⟩⟩ ⟨.ok ⟨true, 200⟩⟩
    wCleanupWtFail ⟨[]⟩ "T-404" none "hello" none none rfl

-- C10: followup's hard-coded model selector --------------------------------

/-- C10: for every registered taskId, the follow-up submission is made with
provider `"anthropic"` and model `"claude-sonnet-4-6"` — the one
`prompt_async` call in the trace carries exactly that selector, whatever
model or provider the original dispatch was given (the registry entry
stores neither). -/
theorem followup_hardcoded_model (fw : FollowupWorld) (r : AgentRegistry)
    (issueId message : String) (agent : AgentEntry)
    (h : r.get issueId = some agent) :
    (followupAgent fw r issueId message).2.2 =
      [.httpPromptAsync agent.port agent.sessionId "anthropic"
        "claude-sonnet-4-6" message] := by
  obtain ⟨pr⟩ := fw
  rcases pr with m | resp
  · simp [followupAgent, h]
  · rcases resp with ⟨ok, st⟩
    cases ok <;> simp [followupAgent, h]

theorem followup_hardcoded_model_witness :
    (followupAgent ⟨.ok ⟨true, 200⟩⟩ ⟨[("T-9", entryT9)]⟩ "T-9"
        "please also update the docs").2.2 =
      [.httpPromptAsync 62109 "ses_1" "anthropic" "claude-sonnet-4-6"
        "please also update the docs"] :=
  followup_hardcoded_model ⟨.ok ⟨true, 200⟩⟩ ⟨[("T-9", entryT9)]⟩ "T-9"
    "please also update the docs" entryT9 (by decide)

-- C7: the T-1 dispatch scenario -------------------------------------------

/-- The C7 scenario arguments: taskId T-1, prompt "fix bug", no slug,
workspace skip = false. -/
def argsT1 : DispatchArgs :=
  { issueId := "T-1", prompt := "fix bug", model := none, provider := none,
    slug := none, skipWorktree := false }

/-- C7 counterexample: in the T-1 scenario the dispatch pipeline clears the
log file at `/tmp/opencode-T-1.log`; no call ever touches
`/tmp/agent-T-1.log`, the path the claim names. -/
theorem dispatch_T1_logfile_counterexample :
    (ExtCall.rmFile "/tmp/agent-T-1.log") ∉
      (dispatch wDispatchOk ⟨[]⟩ argsT1).2.2 ∧
    (ExtCall.rmFile "/tmp/opencode-T-1.log") ∈
      (dispatch wDispatchOk ⟨[]⟩ argsT1).2.2 := by
  decide

/-- C7 amended: dispatching taskId "T-1" with prompt "fix bug", no slug and
workspace skip = false, with every step succeeding, resolves the workspace
path to `<parent>/T-1`, names the tmux session `T_1`, clears the log file
at `/tmp/opencode-T-1.log`, and inserts a registry entry whose branch label
is `"T-1"`. -/
theorem dispatch_T1_scenario (w : DispatchWorld) (reg : AgentRegistry)
    (root parentDir : String) (port : Nat) (sid : String)
    (h : reg.has "T-1" = false)
    (h1 : w.updateStatusResult = .ok ())
    (h2 : w.worktreeCreateResult = .ok ())
    (h3 : w.repoRootResult = .ok root)
    (h4 : w.dirnameResult = .ok parentDir)
    (h5 : w.rmLogResult = .ok ())
    (h6 : w.tmuxNewResult = .ok ())
    (h7 : w.waitForPortResult = .ok port)
    (h8 : w.createSessionResult = .ok sid)
    (h9 : w.promptAsyncResult = .ok ())
    (h10 : w.updateDescResult = .ok ()) :
    (dispatch w reg argsT1).1 = .dispatched
      { issueId := "T-1", port := port, sessionId := sid,
        tmuxSession := "T_1", branch := "T-1",
        worktreePath := parentDir ++ "/" ++ "T-1",
        dispatchedAt := w.now } ∧
    (ExtCall.rmFile "/tmp/opencode-T-1.log") ∈ (dispatch w reg argsT1).2.2 ∧
    (ExtCall.worktreeCreate "T-1") ∈ (dispatch w reg argsT1).2.2 ∧
    (ExtCall.tmuxNewSession "T_1" (parentDir ++ "/" ++ "T-1")) ∈
      (dispatch w reg argsT1).2.2 ∧
    (dispatch w reg argsT1).2.1.get "T-1" = some
      { issueId := "T-1", port := port, sessionId := sid,
        tmuxSession := "T_1", branch := "T-1",
        worktreePath := parentDir ++ "/" ++ "T-1",
        dispatchedAt := w.now } := by
  have hget : reg.get "T-1" = none := has_false_get_none reg _ h
  obtain ⟨desc, us, wc, rr, dn, rm, tn, wp, cs, pa, ud, nowS⟩ := w
  simp only at h1 h2 h3 h4 h5 h6 h7 h8 h9 h10
  subst h1 h2 h3 h4 h5 h6 h7 h8 h9 h10
  refine ⟨?_, ?_, ?_, ?_, ?_⟩ <;>
    simp [dispatch, dispatchFinish, hget, argsT1, branchName, tmuxSessionName,
      replaceAllChar, AgentRegistry.get_set_self _ _ _ h]

theorem dispatch_T1_scenario_witness :
    (dispatch wDispatchOk ⟨[]⟩ argsT1).1 = .dispatched
      { issueId := "T-1", port := 62109, sessionId := "ses_1",
        tmuxSession := "T_1", branch := "T-1",
        worktreePath := "/home/u" ++ "/" ++ "T-1",
        dispatchedAt := wDispatchOk.now } ∧
    (ExtCall.rmFile "/tmp/opencode-T-1.log") ∈
      (dispatch wDispatchOk ⟨[]⟩ argsT1).2.2 ∧
    (ExtCall.worktreeCreate "T-1") ∈ (dispatch wDispatchOk ⟨[]⟩ argsT1).2.2 ∧
    (ExtCall.tmuxNewSession "T_1" ("/home/u" ++ "/" ++ "T-1")) ∈
      (dispatch wDispatchOk ⟨[]⟩ argsT1).2.2 ∧
    (dispatch wDispatchOk ⟨[]⟩ argsT1).2.1.get "T-1" = some
      { issueId := "T-1", port := 62109, sessionId := "ses_1",
        tmuxSession := "T_1", branch := "T-1",
        worktreePath := "/home/u" ++ "/" ++ "T-1",
        dispatchedAt := wDispatchOk.now } :=
  dispatch_T1_scenario wDispatchOk ⟨[]⟩ "/home/u/repo" "/home/u" 62109 "ses_1"
    (by decide) rfl rfl rfl rfl rfl rfl rfl rfl rfl rfl
